import Mathlib

/-!
A verification development for the `@szmarczak/http-cache` client HTTP cache.

The TypeScript sources are shallowly embedded: JavaScript objects that are
used as string-keyed dictionaries become association lists (insertion order
preserved, assignment overwrites in place), JavaScript `Map` storage becomes
the same association-list model, numbers that hold millisecond timestamps
become `Int`, byte bodies become `List Nat`, and the host platform functions
(`Date.parse`, `Date.now`, `Date.prototype.toUTCString`, `crypto.randomUUID`)
become fields of an explicit environment record, since they are outside the
repository.  Streams are modelled as an optional byte list that has not been
consumed and drains successfully; storage calls are modelled as always
succeeding, so the rollback path of the insertion state machine is not
exercised.  JavaScript distinguishes `undefined` (absent object property)
from `null` (absent header per the `WebHeaders.get` contract); both are
`Option.none` in this model except where the distinction is observable,
namely the entity-header comparison of `shouldInvalidateCache`, which gets a
dedicated comparator.
-/

namespace HttpCacheModel

/-- Association-list read, mirroring JavaScript property access `m[k]`
(`undefined` becomes `none`). -/
def jsGet {α : Type} : List (String × α) → String → Option α
  | [], _ => none
  | (k, v) :: rest, key => if k = key then some v else jsGet rest key

/-- Mirrors the JavaScript `in` operator / `Map.has`. -/
def jsHas {α : Type} (m : List (String × α)) (k : String) : Bool :=
  (jsGet m k).isSome

/-- Mirrors JavaScript property assignment `m[k] = v` (and `Map.set`):
overwrite in place when the key exists, append otherwise. -/
def jsObjSet {α : Type} : List (String × α) → String → α → List (String × α)
  | [], k, v => [(k, v)]
  | (k1, v1) :: rest, k, v =>
    if k1 = k then (k, v) :: rest else (k1, v1) :: jsObjSet rest k v

/-- Mirrors `Map.delete`. -/
def jsDelete {α : Type} (m : List (String × α)) (k : String) : List (String × α) :=
  m.filter (fun kv => kv.1 ≠ k)

/-- ASCII whitespace trimmed by `String.prototype.trim` (restricted to the
characters that occur in HTTP header values). -/
def isJsWhitespace (c : Char) : Bool :=
  c = ' ' || c = '\t' || c = '\n' || c = '\r'

/-- `String.prototype.trim` on a character list. -/
def jsTrim (cs : List Char) : String :=
  String.mk (((cs.dropWhile isJsWhitespace).reverse.dropWhile isJsWhitespace).reverse)

/-- Scan characters until the predicate holds, returning the scanned prefix
and the remainder (the delimiter, when found, stays at the head of the
remainder).  This is the `while (index < length && …) index += 1` idiom of
`parseCacheControl`. -/
def scanUntil (p : Char → Bool) : List Char → List Char × List Char
  | [] => ([], [])
  | c :: cs =>
    if p c then ([], c :: cs)
    else
      let r := scanUntil p cs
      (c :: r.1, r.2)

theorem scanUntil_length (p : Char → Bool) :
    ∀ cs : List Char, (scanUntil p cs).2.length ≤ cs.length := by
  intro cs
  induction cs with
  | nil => simp [scanUntil]
  | cons c cs ih =>
    by_cases h : p c
    · simp [scanUntil, h]
    · simp [scanUntil, h]
      omega

/-- The quoted-string scanner of `parseCacheControl`: `cur` is the slice
accumulated since the last `mark`, `acc` are the pieces already pushed onto
`bufferedValue` (most recent first).  Returns the joined value and the
remainder of the input.  The source pushes the pending slice at a backslash
and at a closing quote; an escaped double quote terminates the string with
the escaped character excluded, and an unterminated string yields only the
pieces pushed so far. -/
def scanQuoted : List Char → List Char → List String → String × List Char
  | [], _, acc => (String.join acc.reverse, [])
  | c :: rest, cur, acc =>
    if c = '\\' then
      match rest with
      | [] => (String.join (String.mk cur.reverse :: acc).reverse, [])
      | d :: rest2 =>
        if d = '"' then (String.join ("" :: String.mk cur.reverse :: acc).reverse, rest2)
        else scanQuoted rest2 [d] (String.mk cur.reverse :: acc)
    else if c = '"' then (String.join (String.mk cur.reverse :: acc).reverse, rest)
    else scanQuoted rest (c :: cur) acc

theorem scanQuoted_length :
    ∀ (cs cur : List Char) (acc : List String),
      (scanQuoted cs cur acc).2.length ≤ cs.length := by
  suffices H : ∀ (n : Nat) (cs cur : List Char) (acc : List String),
      cs.length ≤ n → (scanQuoted cs cur acc).2.length ≤ cs.length by
    intro cs cur acc
    exact H cs.length cs cur acc le_rfl
  intro n
  induction n with
  | zero =>
    intro cs cur acc h
    cases cs with
    | nil => simp [scanQuoted]
    | cons c rest => simp at h
  | succ n ih =>
    intro cs cur acc h
    match cs with
    | [] => simp [scanQuoted]
    | [c] =>
      rw [scanQuoted.eq_2]
      by_cases h1 : c = '\\'
      · simp [h1]
      · by_cases h2 : c = '"'
        · simp [h1, h2]
        · simp [h1, h2, scanQuoted]
    | c :: c1 :: cs2 =>
      rw [scanQuoted.eq_3]
      by_cases h1 : c = '\\'
      · by_cases h2 : c1 = '"'
        · simp [h1, h2]
          omega
        · simp only [if_pos h1, if_neg h2]
          have hrec := ih cs2 [c1] (String.mk cur.reverse :: acc) (by simp at h ⊢; omega)
          simp only [List.length_cons]
          omega
      · by_cases h2 : c = '"'
        · simp [h1, h2]
        · simp only [if_neg h1, if_neg h2]
          have hrec := ih (c1 :: cs2) (c :: cur) acc (by simp at h ⊢; omega)
          simp only [List.length_cons] at hrec ⊢
          omega

/-- One iteration of the `while` loop of `parseCacheControl`
(`src/unnamed/part_003`): extract one directive.  Returns `none` when the
input is exhausted, otherwise `(name, checked, value, rest)` where `checked`
records whether this branch of the source performs the `name in result`
duplicate test: the source tests it in the bare-token branch, the
quoted-string branch and the end-of-field branch, but *not* in the
valueless-directive branch that ends with a comma. -/
def ccStep (cs : List Char) : Option (String × Bool × String × List Char) :=
  match cs with
  | [] => none
  | c :: rest0 =>
    let s := scanUntil (fun ch => ch = ',' || ch = '=') (c :: rest0)
    let name := jsTrim s.1
    match s.2 with
    | [] => some (name, true, "", [])
    | d :: rest1 =>
      if d = ',' then some (name, false, "", rest1)
      else
        match rest1 with
        | [] => some (name, true, "", [])
        | e :: rest2 =>
          if e = '"' then
            let q := scanQuoted rest2 [] []
            let rest5 := if q.2.head? = some ',' then q.2.tail else q.2
            some (name, true, q.1, rest5)
          else
            let t := scanUntil (fun ch => ch = ',') (e :: rest2)
            some (name, true, String.mk t.1, t.2.tail)

theorem list_tail_length_le {α : Type} (l : List α) : l.tail.length ≤ l.length := by
  cases l <;> simp

theorem ccStep_length :
    ∀ (cs : List Char) (out : String × Bool × String × List Char),
      ccStep cs = some out → out.2.2.2.length < cs.length := by
  intro cs out h
  match cs with
  | [] => simp [ccStep] at h
  | c :: rest0 =>
    rw [ccStep] at h
    have hs := scanUntil_length (fun ch => ch = ',' || ch = '=') (c :: rest0)
    rcases hrem : (scanUntil (fun ch => ch = ',' || ch = '=') (c :: rest0)).2 with _ | ⟨d, rest1⟩
    · rw [hrem] at h
      simp only at h
      cases h
      simp
    · rw [hrem] at h
      rw [hrem] at hs
      simp only [List.length_cons] at hs
      by_cases hd : d = ','
      · simp only [if_pos hd] at h
        cases h
        simp only [List.length_cons]
        omega
      · simp only [if_neg hd] at h
        rcases rest1 with _ | ⟨e, rest2⟩
        · simp only at h
          cases h
          simp
        · by_cases hq : e = '"'
          · simp only [if_pos hq] at h
            cases h
            have hsc := scanQuoted_length rest2 [] []
            have htl := list_tail_length_le (scanQuoted rest2 [] []).2
            simp only [List.length_cons] at hs ⊢
            by_cases hcomma : (scanQuoted rest2 [] []).2.head? = some ','
            · simp only [if_pos hcomma]
              omega
            · simp only [if_neg hcomma]
              omega
          · simp only [if_neg hq] at h
            cases h
            have ht := scanUntil_length (fun ch => ch = ',') (e :: rest2)
            have htl := list_tail_length_le (scanUntil (fun ch => ch = ',') (e :: rest2)).2
            simp only [List.length_cons] at hs ht ⊢
            omega

/-- The `while` loop of `parseCacheControl`: process directives one at a
time; when a duplicate-checking branch sees a name already recorded, the
whole field collapses to exactly the no-store mapping.  The loop is
expressed with a fuel parameter (any fuel exceeding the input length gives
the loop's fixpoint, see `parseCCLoop_fuel_irrelevant`). -/
def parseCCLoop : Nat → List Char → List (String × String) → List (String × String)
  | 0, _, result => result
  | fuel + 1, cs, result =>
    match ccStep cs with
    | none => result
    | some (name, checked, v, rest) =>
      if checked && jsHas result name then [("no-store", "")]
      else parseCCLoop fuel rest (jsObjSet result name v)

theorem parseCCLoop_fuel_irrelevant :
    ∀ (fuel1 fuel2 : Nat) (cs : List Char) (result : List (String × String)),
      cs.length < fuel1 → cs.length < fuel2 →
      parseCCLoop fuel1 cs result = parseCCLoop fuel2 cs result := by
  intro fuel1
  induction fuel1 with
  | zero => intro fuel2 cs result h1; omega
  | succ f1 ih =>
    intro fuel2 cs result h1 h2
    cases fuel2 with
    | zero => omega
    | succ f2 =>
      rw [parseCCLoop, parseCCLoop]
      rcases hstep : ccStep cs with _ | ⟨name, checked, v, rest⟩
      · rfl
      · have hlt := ccStep_length cs _ hstep
        simp only
        by_cases hdup : checked && jsHas result name
        · simp [hdup]
        · simp only [hdup, if_neg, Bool.false_eq_true, if_false]
          exact ih f2 rest (jsObjSet result name v) (by simp at hlt ⊢; omega)
            (by simp at hlt ⊢; omega)

/-- `parseCacheControl` from `src/unnamed/part_003` (`null` input yields the
empty mapping). -/
def parseCacheControl (cacheControl : Option String) : List (String × String) :=
  match cacheControl with
  | none => []
  | some s => parseCCLoop (s.data.length + 1) s.data []

/-- `toSafePositiveInteger` from `src/source/to-safe-positive-integer.mts`:
digits only, `Number.parseInt`, and the safe-integer bound `2^53 - 1`
(an empty string parses to `NaN` and is rejected). -/
def toSafePositiveInteger (x : Option String) : Option Nat :=
  match x with
  | none => none
  | some s =>
    if s.data.all (fun c => c.isDigit) then
      if s.data.isEmpty then none
      else
        let parsed := s.data.foldl (fun acc c => acc * 10 + (c.toNat - 48)) 0
        if parsed ≤ 9007199254740991 then some parsed else none
    else none

/-- Headers are modelled as association lists of name–value pairs; `get` is
first-match lookup and `has` is key membership, mirroring the `WebHeaders`
view built by `toWebHeaders` over a plain object. -/
abbrev HeadersL := List (String × String)

/-- Host-platform functions used by the source but defined outside the
repository: `Date.parse` (returns `NaN` on failure, modelled as `none`),
`Date.now`, `Date.prototype.toUTCString`, and `crypto.randomUUID` (the next
fresh identifier). -/
structure Env where
  dateParse : String → Option Int
  now : Int
  toUTCString : Int → String
  freshId : String

/-- The three recognized constructor options of `HttpCache` with their
default values. -/
structure Config where
  shared : Bool := true
  forceMustUnderstand : Bool := false
  heuristicLifetime : Int := 60000

def isCacheableMethod (m : String) : Bool :=
  m = "GET" || m = "HEAD"

def isSafeMethod (m : String) : Bool :=
  m = "GET" || m = "HEAD" || m = "OPTIONS" || m = "TRACE"

def isValidStatusCode (s : Int) : Bool :=
  s > 199 && s < 600

def isFinalStatusCode (s : Int) : Bool :=
  s > 199

def isHeuristicallyCacheableStatusCode (s : Int) : Bool :=
  s = 200 || s = 203 || s = 204 || s = 300 || s = 301 || s = 308
    || s = 404 || s = 405 || s = 410 || s = 414 || s = 451 || s = 501

def isUnderstoodStatusCode (s : Int) : Bool :=
  s = 200 || s = 201 || s = 202 || s = 203 || s = 204 || s = 205
    || s = 300 || s = 301 || s = 302 || s = 303 || s = 304 || s = 307 || s = 308
    || s = 400 || s = 401 || s = 403 || s = 404 || s = 405 || s = 406 || s = 407
    || s = 408 || s = 410 || s = 411 || s = 412 || s = 413 || s = 414 || s = 415
    || s = 417 || s = 421 || s = 426 || s = 451
    || s = 500 || s = 501 || s = 502 || s = 503 || s = 504 || s = 505 || s = 506

/-- `vary.includes('*')`. -/
def varyHasStar (vary : Option String) : Bool :=
  match vary with
  | none => false
  | some v => v.data.contains '*'

/-- The storability predicate `canStore` of `src/source/index.mts`.  Note
that the `hasAuthorization` argument is whatever the caller passes; the RFC
comment in the source says it should reflect the *request* headers. -/
def canStore (shared : Bool) (method : String) (statusCode : Int)
    (hasAuthorization : Bool) (rawResponseCacheControl : Option String)
    (hasExpires : Bool) (vary : Option String) (forceMustUnderstand : Bool) :
    Bool :=
  if varyHasStar vary then false
  else
    let rcc := parseCacheControl rawResponseCacheControl
    let mustUnderstand := forceMustUnderstand || jsHas rcc "must-understand"
    isValidStatusCode statusCode
      && isCacheableMethod method
      && isFinalStatusCode statusCode
      && (!mustUnderstand || isUnderstoodStatusCode statusCode)
      && !(jsHas rcc "no-store")
      && (!shared || !(jsHas rcc "private"))
      && (!shared || !hasAuthorization
            || (jsHas rcc "must-revalidate" || jsHas rcc "public"
                  || (toSafePositiveInteger (jsGet rcc "s-maxage")).isSome))
      && (jsHas rcc "public"
            || (!shared && jsHas rcc "private")
            || hasExpires
            || (toSafePositiveInteger (jsGet rcc "max-age")).isSome
            || (shared && (toSafePositiveInteger (jsGet rcc "s-maxage")).isSome)
            || isHeuristicallyCacheableStatusCode statusCode)

/-- `getLifetimeMs` of `src/source/index.mts`: freshness lifetime in
milliseconds, or `none` for "not storable". -/
def getLifetimeMs (env : Env) (shared : Bool) (expires : Option String)
    (requestCacheControl responseCacheControl : Option String)
    (heuristicLifetime : Int) : Option Int :=
  let parsedRequest := parseCacheControl requestCacheControl
  let parsedResponse := parseCacheControl responseCacheControl
  if jsHas parsedRequest "no-store" then none
  else if jsHas parsedResponse "no-store" then none
  else if shared && jsHas parsedResponse "private" then none
  else
    match (if shared then toSafePositiveInteger (jsGet parsedResponse "s-maxage") else none) with
    | some sharedMaxAge => some ((sharedMaxAge : Int) * 1000)
    | none =>
      match toSafePositiveInteger (jsGet parsedResponse "max-age") with
      | some maxAge => some ((maxAge : Int) * 1000)
      | none =>
        match expires with
        | none => some heuristicLifetime
        | some e =>
          match env.dateParse e with
          | none => none
          | some expiresDate => some (max 0 (expiresDate - env.now))

def isHopByHop (h : String) : Bool :=
  h = "connection" || h = "keep-alive"
    || h = "proxy-authenticate" || h = "proxy-authentication-info"

/-- Helper of `splitComma`: `cur` is the current piece, reversed. -/
def splitCommaAux : List Char → List Char → List (List Char)
  | [], cur => [cur.reverse]
  | c :: rest, cur =>
    if c = ',' then cur.reverse :: splitCommaAux rest []
    else splitCommaAux rest (c :: cur)

/-- Split a character list at commas (JavaScript `String.prototype.split(',')`:
an empty input yields one empty piece, a trailing comma yields a trailing
empty piece). -/
def splitComma (cs : List Char) : List (List Char) :=
  splitCommaAux cs []

/-- The field names listed in the `Connection` header of the given headers:
`connection.split(',').map(header => header.trim())`. -/
def connectionTokens (headers : HeadersL) : List String :=
  match jsGet headers "connection" with
  | none => []
  | some c => (splitComma c.data).map jsTrim

/-- `withoutHopByHop` of `src/source/index.mts`: copy the response headers,
dropping the four hop-by-hop fields and every field named in the *response's*
`Connection` header. -/
def withoutHopByHop (responseHeaders : HeadersL) : HeadersL :=
  let hopByHop := connectionTokens responseHeaders
  responseHeaders.foldl
    (fun acc kv =>
      if !isHopByHop kv.1 && !hopByHop.contains kv.1 then
        match jsGet responseHeaders kv.1 with
        | some v => jsObjSet acc kv.1 v
        | none => acc
      else acc) []

/-- `normalizeDateHeader` of `src/source/index.mts`: accept a parsed `Date`
only strictly inside `(requestTime, now)`, else fall back to `requestTime`. -/
def normalizeDateHeader (env : Env) (date : Option String) (requestTime : Int) : Int :=
  match date with
  | none => requestTime
  | some d =>
    match env.dateParse d with
    | none => requestTime
    | some parsed =>
      if parsed > requestTime && parsed < env.now then parsed else requestTime

/-- The `date` local of `calculateAgeMs`: an absent `Date` header yields
`Date.now()`, a present one goes through `normalizeDateHeader`. -/
def dateValueMs (env : Env) (dateHeader : Option String) (requestTime : Int) : Int :=
  match dateHeader with
  | none => env.now
  | some _ => normalizeDateHeader env dateHeader requestTime

/-- `normalizeLastModified` of `src/source/index.mts`. -/
def normalizeLastModified (env : Env) (lastModified : Option String) : Option Int :=
  lastModified.bind env.dateParse

/-- `calculateAgeMs` of `src/source/index.mts` (corrected initial age). -/
def calculateAgeMs (env : Env) (ageHeader dateHeader : Option String)
    (requestTime responseTime : Int) : Int :=
  let age : Int := (((toSafePositiveInteger ageHeader).getD 0 : Nat) : Int) * 1000
  let date := dateValueMs env dateHeader requestTime
  let apparentAge := max 0 (responseTime - date)
  let responseDelay := responseTime - requestTime
  let correctedAge := age + responseDelay
  max apparentAge correctedAge

/-- The stored metadata record (`Metadata` in `src/source/index.mts`). -/
structure Metadata where
  id : String
  responseTime : Int
  lastModified : Option Int
  etag : Option String
  vary : List (String × Option String)
  method : String
  statusCode : Int
  correctedInitialAge : Int
  lifetime : Int
  mustRevalidateStale : Bool
  sharedMustRevalidateStale : Bool
  alwaysRevalidate : Bool
  responseHeaders : HeadersL
  invalidated : Bool
deriving DecidableEq, Repr

/-- The two backing stores.  A blob value is `Option (List Nat)` because the
source stores `null` for a body that was legitimately empty/absent; an absent
key is a separate state (`undefined`). -/
structure CacheState where
  metadata : List (String × Metadata)
  blobs : List (String × Option (List Nat))
deriving DecidableEq, Repr

def getMetadataKey (url : String) : String := url

def getBlobKey (id url : String) : String := id ++ "|" ++ url

/-- JavaScript string lowering restricted to ASCII, as used by
`parseVary` (`header.trim().toLowerCase()`). -/
def jsToLower (s : String) : String :=
  String.mk (s.data.map Char.toLower)

/-- `parseVary` of `src/source/index.mts`: the request's values for every
header named in `Vary`. -/
def parseVary (vary : Option String) (requestHeaders : HeadersL) :
    List (String × Option String) :=
  match vary with
  | none => []
  | some v =>
    ((splitComma v.data).map (fun l => jsToLower (jsTrim l))).map
      (fun h => (h, jsGet requestHeaders h))

/-- The `!==` comparison of `shouldInvalidateCache` between a stored entity
header (`metadata.responseHeaders[name]`, `undefined` when absent) and the
incoming one (`responseHeaders.get(name)`, `null` when absent).  Two absent
values compare *unequal* because `undefined !== null` in JavaScript. -/
def entityDiffers (stored incoming : Option String) : Bool :=
  match stored, incoming with
  | some a, some b => a ≠ b
  | some _, none => true
  | none, some _ => true
  | none, none => true

/-- `shouldInvalidateCache` of `src/source/index.mts`: do the incoming
validators differ from the stored entry's validators? -/
def shouldInvalidateCache (env : Env) (oldMetadata : Metadata)
    (responseHeaders : HeadersL) : Bool :=
  decide (oldMetadata.etag ≠ jsGet responseHeaders "etag")
    || decide (oldMetadata.lastModified
          ≠ normalizeLastModified env (jsGet responseHeaders "last-modified"))
    || entityDiffers (jsGet oldMetadata.responseHeaders "content-length")
          (jsGet responseHeaders "content-length")
    || entityDiffers (jsGet oldMetadata.responseHeaders "content-type")
          (jsGet responseHeaders "content-type")
    || entityDiffers (jsGet oldMetadata.responseHeaders "content-language")
          (jsGet responseHeaders "content-language")
    || entityDiffers (jsGet oldMetadata.responseHeaders "content-encoding")
          (jsGet responseHeaders "content-encoding")

/-- `HttpCache.invalidate`: set the sticky `invalidated` flag unless the
entry is absent or already invalidated. -/
def invalidateUrl (st : CacheState) (url : String) : CacheState :=
  match jsGet st.metadata (getMetadataKey url) with
  | none => st
  | some m =>
    if m.invalidated then st
    else
      { st with
          metadata := jsObjSet st.metadata (getMetadataKey url)
            { m with invalidated := true } }

/-- The three outcomes of `HttpCache.#get`: `undefined` (miss), a
reconstructed response, or a revalidation request. -/
inductive GetOutcome where
  | miss : GetOutcome
  | response (body : Option (List Nat)) (status : Int) (headers : HeadersL) : GetOutcome
  | revalidation (headers : HeadersL) : GetOutcome
deriving DecidableEq, Repr

def isRevalidationOutcome : GetOutcome → Bool
  | GetOutcome.revalidation _ => true
  | _ => false

/-- The validation decision of `HttpCache.#get` (lines 571–598 of
`src/source/index.mts`): `revalidate || (minFresh present && freshEnough)
|| (isStale && !acceptStale)`, computed over the stored entry, the request
`Cache-Control`, the configuration, and the current time. -/
def lookupDecision (env : Env) (cfg : Config) (metadata : Metadata)
    (requestHeaders : HeadersL) : Bool :=
  let residentTime := env.now - metadata.responseTime
  let currentAge := metadata.correctedInitialAge + residentTime
  let stale := currentAge - metadata.lifetime
  let isStale := decide (stale ≥ 0)
  let requestCacheControl := parseCacheControl (jsGet requestHeaders "cache-control")
  let alwaysRevalidate := jsHas requestCacheControl "no-cache"
  let revalidate := metadata.invalidated
    || alwaysRevalidate
    || metadata.alwaysRevalidate
    || (isStale && metadata.mustRevalidateStale)
    || (cfg.shared && isStale && metadata.sharedMustRevalidateStale)
  let maxStale := toSafePositiveInteger (jsGet requestCacheControl "max-stale")
  let acceptStale := maxStale.isSome && decide ((maxStale.getD 0 : Int) ≥ stale)
  let minFresh := toSafePositiveInteger (jsGet requestCacheControl "min-fresh")
  let freshEnough := decide (currentAge + ((minFresh.getD 0 : Nat) : Int) < metadata.lifetime)
  revalidate || (minFresh.isSome && freshEnough) || (isStale && !acceptStale)

/-- `HttpCache.#get` of `src/source/index.mts`, returning the outcome and
the state after the call (the fire-and-forget `invalidate` of the unsafe-
method branch is applied to the state). -/
def httpCacheGet (env : Env) (cfg : Config) (st : CacheState)
    (url method : String) (requestHeaders : HeadersL) :
    GetOutcome × CacheState :=
  if method ≠ "GET" ∧ method ≠ "HEAD" then
    if isSafeMethod method then (GetOutcome.miss, st)
    else (GetOutcome.miss, invalidateUrl st url)
  else if jsHas requestHeaders "range" || jsHas requestHeaders "if-match"
      || jsHas requestHeaders "if-none-match"
      || jsHas requestHeaders "if-modified-since"
      || jsHas requestHeaders "if-unmodified-since"
      || jsHas requestHeaders "if-range" then
    (GetOutcome.miss, st)
  else
    match jsGet st.metadata (getMetadataKey url) with
    | none => (GetOutcome.miss, st)
    | some metadata =>
      if metadata.method = "HEAD" ∧ method = "GET" then (GetOutcome.miss, st)
      else if !(metadata.vary.all (fun p => jsGet requestHeaders p.1 = p.2)) then
        (GetOutcome.miss, st)
      else
        if lookupDecision env cfg metadata requestHeaders then
          if metadata.lastModified = none ∧ metadata.etag = none then
            (GetOutcome.miss, st)
          else
            (GetOutcome.revalidation
              ((match metadata.lastModified with
                | some lm => [("if-modified-since", env.toUTCString lm)]
                | none => [])
              ++ (match metadata.etag with
                | some e => [("if-none-match", e)]
                | none => [])), st)
        else
          if method = "HEAD" then
            (GetOutcome.response (some []) metadata.statusCode
              (jsObjSet metadata.responseHeaders "age"
                (toString (Int.fdiv
                  (metadata.correctedInitialAge + (env.now - metadata.responseTime))
                  1000))), st)
          else
            match jsGet st.blobs (getBlobKey metadata.id url) with
            | none => (GetOutcome.miss, st)
            | some none =>
              (GetOutcome.response none metadata.statusCode
                (jsObjSet metadata.responseHeaders "age"
                  (toString (Int.fdiv
                    (metadata.correctedInitialAge + (env.now - metadata.responseTime))
                    1000))), st)
            | some (some blob) =>
              (GetOutcome.response (some blob) metadata.statusCode
                (jsObjSet metadata.responseHeaders "age"
                  (toString (Int.fdiv
                    (metadata.correctedInitialAge + (env.now - metadata.responseTime))
                    1000))), st)

/-- The `tryInvalidate` closure inside `HttpCache.#onResponse`: returns
whether the insertion must stop, together with the possibly updated state.
Note the polarity of the `invalidated` test, taken verbatim from the source:
when the prior entry is *not* yet invalidated the function stops without
writing anything, and when it already is invalidated it rewrites the same
record. -/
def tryInvalidateFn (env : Env) (st : CacheState) (url method : String)
    (statusCode : Int) (oldMetadata : Option Metadata)
    (responseHeaders : HeadersL) : Bool × CacheState :=
  match oldMetadata with
  | none => (false, st)
  | some old =>
    if method = "GET" ∧ statusCode ≠ 304 then (false, st)
    else if shouldInvalidateCache env old responseHeaders then
      if !old.invalidated then (true, st)
      else
        (true,
          { st with
              metadata := jsObjSet st.metadata (getMetadataKey url)
                { old with invalidated := true } })
    else (false, st)

/-- The metadata record built by `HttpCache.#onResponse` (the object
literal at lines 771–800 of `src/source/index.mts`). -/
def insertedMetadata (env : Env) (oldMetadata : Option Metadata)
    (method : String) (statusCode : Int)
    (requestHeaders responseHeaders : HeadersL)
    (requestTime responseTime lifetime : Int) : Metadata :=
  let responseCacheControl := parseCacheControl (jsGet responseHeaders "cache-control")
  { id := (oldMetadata.map Metadata.id).getD env.freshId
    responseTime := responseTime
    lastModified := normalizeLastModified env (jsGet responseHeaders "last-modified")
    etag := jsGet responseHeaders "etag"
    vary := parseVary (jsGet responseHeaders "vary") requestHeaders
    method := (oldMetadata.map Metadata.method).getD method
    statusCode := (oldMetadata.map Metadata.statusCode).getD statusCode
    correctedInitialAge := calculateAgeMs env (jsGet responseHeaders "age")
      (jsGet responseHeaders "date") requestTime responseTime
    lifetime := lifetime
    mustRevalidateStale := jsHas responseCacheControl "must-revalidate"
    sharedMustRevalidateStale := jsHas responseCacheControl "proxy-revalidate"
    alwaysRevalidate := jsHas responseCacheControl "no-cache"
    responseHeaders := withoutHopByHop responseHeaders
    invalidated := false }

/-- `HttpCache.#onResponse` of `src/source/index.mts`.  The body stream is
modelled as an optional byte list that has not been read yet and drains
successfully; storage writes are modelled as succeeding, so the rollback
branch is not taken. -/
def httpCacheOnResponse (env : Env) (cfg : Config) (st : CacheState)
    (url method : String) (statusCode : Int)
    (requestHeaders responseHeaders : HeadersL)
    (requestTime responseTime : Int)
    (stream : Option (List Nat)) : CacheState :=
  if jsHas responseHeaders "content-range" then st
  else
    let storeable := canStore cfg.shared method statusCode
      (jsHas responseHeaders "authorization")
      (jsGet responseHeaders "cache-control")
      (jsHas responseHeaders "expires")
      (jsGet responseHeaders "vary")
      cfg.forceMustUnderstand
    if !storeable then st
    else
      match getLifetimeMs env cfg.shared (jsGet responseHeaders "expires")
          (jsGet requestHeaders "cache-control")
          (jsGet responseHeaders "cache-control") cfg.heuristicLifetime with
      | none => st
      | some lifetime =>
        let oldMetadata := jsGet st.metadata (getMetadataKey url)
        let inval := tryInvalidateFn env st url method statusCode oldMetadata responseHeaders
        if inval.1 then inval.2
        else
          let metadata : Metadata := insertedMetadata env oldMetadata method
            statusCode requestHeaders responseHeaders requestTime responseTime
            lifetime
          let blobKey := getBlobKey metadata.id url
          let noContent := stream.isNone || method = "HEAD"
            || statusCode = 204 || statusCode = 304
          let buffer : Option (List Nat) := if noContent then none else stream
          let st1 : CacheState :=
            { st with metadata := jsObjSet st.metadata (getMetadataKey url) metadata }
          if statusCode = 304 then st1
          else { st1 with blobs := jsObjSet st1.blobs blobKey buffer }

theorem jsGet_jsObjSet_self {α : Type} (m : List (String × α)) (k : String) (v : α) :
    jsGet (jsObjSet m k v) k = some v := by
  induction m with
  | nil => simp [jsObjSet, jsGet]
  | cons kv rest ih =>
    obtain ⟨k1, v1⟩ := kv
    by_cases h : k1 = k
    · simp [jsObjSet, h, jsGet]
    · simp [jsObjSet, h, jsGet, ih]

theorem jsGet_jsObjSet_ne {α : Type} (m : List (String × α)) (k key : String)
    (v : α) (hne : k ≠ key) : jsGet (jsObjSet m k v) key = jsGet m key := by
  induction m with
  | nil => simp [jsObjSet, jsGet, hne]
  | cons kv rest ih =>
    obtain ⟨k1, v1⟩ := kv
    by_cases h : k1 = k
    · simp [jsObjSet, h, jsGet, hne]
    · by_cases h2 : k1 = key
      · simp [jsObjSet, h, jsGet, h2, Ne.symm hne]
      · simp [jsObjSet, h, jsGet, h2, ih]

/-- The successful insertion path of `#onResponse`: once the content-range,
storability, lifetime and freshening gates have all been passed, the
metadata entry is replaced by `insertedMetadata` and — except for a 304 —
the blob keyed by the entry's id is replaced by the drained buffer. -/
theorem onResponse_stores (env : Env) (cfg : Config) (st : CacheState)
    (url method : String) (statusCode : Int)
    (requestHeaders responseHeaders : HeadersL)
    (requestTime responseTime : Int) (stream : Option (List Nat))
    (lifetime : Int)
    (hcr : jsHas responseHeaders "content-range" = false)
    (hstore : canStore cfg.shared method statusCode
        (jsHas responseHeaders "authorization")
        (jsGet responseHeaders "cache-control")
        (jsHas responseHeaders "expires")
        (jsGet responseHeaders "vary") cfg.forceMustUnderstand = true)
    (hlife : getLifetimeMs env cfg.shared (jsGet responseHeaders "expires")
        (jsGet requestHeaders "cache-control")
        (jsGet responseHeaders "cache-control") cfg.heuristicLifetime
      = some lifetime)
    (hinval : (tryInvalidateFn env st url method statusCode
        (jsGet st.metadata (getMetadataKey url)) responseHeaders).1 = false) :
    httpCacheOnResponse env cfg st url method statusCode requestHeaders
        responseHeaders requestTime responseTime stream
      = (if statusCode = 304 then
          { st with
              metadata := jsObjSet st.metadata (getMetadataKey url)
                (insertedMetadata env (jsGet st.metadata (getMetadataKey url))
                  method statusCode requestHeaders responseHeaders requestTime
                  responseTime lifetime) }
        else
          { metadata := jsObjSet st.metadata (getMetadataKey url)
              (insertedMetadata env (jsGet st.metadata (getMetadataKey url))
                method statusCode requestHeaders responseHeaders requestTime
                responseTime lifetime)
            blobs := jsObjSet st.blobs
              (getBlobKey (insertedMetadata env
                (jsGet st.metadata (getMetadataKey url)) method statusCode
                requestHeaders responseHeaders requestTime responseTime
                lifetime).id url)
              (if stream.isNone || method = "HEAD" || statusCode = 204
                  || statusCode = 304 then none
               else stream) }) := by
  rw [httpCacheOnResponse]
  simp only [hcr, Bool.false_eq_true, if_false, hstore, Bool.not_true, hlife,
    hinval]

/-- The directives extracted by successive iterations of the
`parseCacheControl` loop, each with the flag saying whether its branch
performs the duplicate-name check (same fuel convention as `parseCCLoop`). -/
def ccDirectivesLoop : Nat → List Char → List (String × Bool)
  | 0, _ => []
  | fuel + 1, cs =>
    match ccStep cs with
    | none => []
    | some (n, c, _, rest) => (n, c) :: ccDirectivesLoop fuel rest

def ccDirectives (cs : List Char) : List (String × Bool) :=
  ccDirectivesLoop (cs.length + 1) cs

/-- An environment whose `Date.parse` always fails, at wall-clock `t`. -/
def plainEnvAt (t : Int) : Env :=
  { dateParse := fun _ => none
    now := t
    toUTCString := fun _ => "date"
    freshId := "fresh-id" }

def defaultConfig : Config := {}

def emptyState : CacheState := { metadata := [], blobs := [] }

/-- C1.  The claim says the shared-cache `Authorization` gate is keyed to
the *request* headers, so that Scenario D stores nothing.  The code passes
`responseHeaders.has('authorization')` into `canStore`, contradicting the
RFC quotation in its own comment ("the Authorization header field is not
present in the request"): with the authorization on the request and a bare
`max-age=60` response, `canStore` is consulted with
`hasAuthorization = false`, returns true, and the entry *is* written —
while `canStore` with the request-side value `true` would have returned
false exactly as the claim demands. -/
theorem c1_authorization_gate_reads_response_headers :
    canStore true "GET" 200 true (some "max-age=60") false none false = false
    ∧ jsHas [("authorization", "Bearer x")] "authorization" = true
    ∧ jsHas [("cache-control", "max-age=60")] "authorization" = false
    ∧ (jsGet (httpCacheOnResponse (plainEnvAt 0) defaultConfig emptyState "u"
          "GET" 200 [("authorization", "Bearer x")]
          [("cache-control", "max-age=60")] 0 0 (some [120])).metadata
        "u").isSome = true := by
  refine ⟨by decide, by decide, by decide, by decide⟩

/-- The prior entry of Scenario G: a stored 200 with `ETag: "v1"`, not yet
invalidated. -/
def scenarioGEntry : Metadata :=
  { id := "id0"
    responseTime := 0
    lastModified := none
    etag := some "\"v1\""
    vary := []
    method := "GET"
    statusCode := 200
    correctedInitialAge := 0
    lifetime := 60000
    mustRevalidateStale := false
    sharedMustRevalidateStale := false
    alwaysRevalidate := false
    responseHeaders := [("content-length", "1")]
    invalidated := false }

def scenarioGState : CacheState :=
  { metadata := [("u", scenarioGEntry)], blobs := [("id0|u", some [120])] }

/-- C2.  The claim (and Scenario G) say a 304 whose validators differ marks
the prior entry `invalidated = true`.  The `tryInvalidate` closure tests
`!oldMetadata.invalidated` and returns early *without writing* in exactly
that case (the write happens only when the entry was already invalidated),
so after the GET 304 with the non-matching `ETag: "v2"` the store is
byte-for-byte unchanged and the entry still has `invalidated = false`. -/
theorem c2_mismatched_validators_leave_entry_unmarked :
    shouldInvalidateCache (plainEnvAt 10) scenarioGEntry
        [("etag", "\"v2\""), ("cache-control", "max-age=60")] = true
    ∧ httpCacheOnResponse (plainEnvAt 10) defaultConfig scenarioGState "u"
        "GET" 304 [] [("etag", "\"v2\""), ("cache-control", "max-age=60")]
        10 10 none = scenarioGState
    ∧ (jsGet scenarioGState.metadata "u").map Metadata.invalidated
        = some false := by
  refine ⟨by decide, by decide, by decide⟩

/-- C3.  The claim says *every* duplicated directive name collapses the
parsed field to exactly the no-store mapping.  The loop checks `name in
result` in the bare-token, quoted-string and end-of-field branches but not
in the valueless-directive branch that ends with a comma, so in `"a,a,"`
the name `a` is extracted twice (both times unchecked) and the result is
`{a: ""}`, not `{no-store: ""}` — although the variant `"a,a"` without the
trailing comma does collapse.  This contradicts the README ("Duplicate
cache-control directives result in the header being parsed as no-store"). -/
theorem c3_duplicate_valueless_directive_escapes_collapse :
    (ccDirectives "a,a,".data).map Prod.fst = ["a", "a"]
    ∧ parseCacheControl (some "a,a,") = [("a", "")]
    ∧ parseCacheControl (some "a,a") = [("no-store", "")]
    ∧ ([("a", "")] : List (String × String)) ≠ [("no-store", "")] := by
  refine ⟨by decide, by decide, by decide, by decide⟩

/-- "Evaluates its rules in this order and returns on the first that
applies": return the result attached to the first rule whose guard holds,
and "not storable" (`none`) when no rule applies. -/
def firstApplicable : List (Bool × Option Int) → Option Int
  | [] => none
  | (guard, result) :: rest => if guard then result else firstApplicable rest

/-- The lifetime rules exactly as the specification words them, in the
spec's order.  Rule 7 ("anything else yields not-storable") is the empty
default of `firstApplicable`. -/
def lifetimeSpecRules (env : Env) (shared : Bool) (expires : Option String)
    (requestCacheControl responseCacheControl : Option String)
    (heuristicLifetime : Int) : List (Bool × Option Int) :=
  let pReq := parseCacheControl requestCacheControl
  let pResp := parseCacheControl responseCacheControl
  let smax := toSafePositiveInteger (jsGet pResp "s-maxage")
  let maxAge := toSafePositiveInteger (jsGet pResp "max-age")
  let expParsed := expires.bind env.dateParse
  [ (jsHas pReq "no-store" || jsHas pResp "no-store", none),
    (shared && jsHas pResp "private", none),
    (shared && smax.isSome, smax.map (fun n => (n : Int) * 1000)),
    (maxAge.isSome, maxAge.map (fun n => (n : Int) * 1000)),
    (expires.isNone, some heuristicLifetime),
    (expParsed.isSome, expParsed.map (fun d => max 0 (d - env.now))) ]

/-- C5.  The lifetime computation is exactly the spec's ordered cascade:
no-store (request or response), shared+private, shared s-maxage, max-age,
absent Expires → heuristic, parsed Expires → `max(0, expires − now)`,
otherwise not storable — first applicable rule wins. -/
theorem c5_lifetime_rule_order (env : Env) (shared : Bool)
    (expires requestCacheControl responseCacheControl : Option String)
    (heuristicLifetime : Int) :
    getLifetimeMs env shared expires requestCacheControl responseCacheControl
        heuristicLifetime
      = firstApplicable (lifetimeSpecRules env shared expires
          requestCacheControl responseCacheControl heuristicLifetime) := by
  simp only [getLifetimeMs, lifetimeSpecRules, firstApplicable]
  by_cases h1 : jsHas (parseCacheControl requestCacheControl) "no-store"
  · simp [h1]
  · by_cases h2 : jsHas (parseCacheControl responseCacheControl) "no-store"
    · simp [h1, h2]
    · simp only [h1, h2, Bool.false_or, Bool.or_false, Bool.false_eq_true,
        if_false, ite_false]
      by_cases h3 : shared
      · by_cases h4 : jsHas (parseCacheControl responseCacheControl) "private"
        · simp [h3, h4]
        · simp only [h3, h4, Bool.and_false, Bool.and_true, if_true, ite_true,
            Bool.true_and, Bool.false_eq_true, if_false, ite_false]
          rcases h5 : toSafePositiveInteger
              (jsGet (parseCacheControl responseCacheControl) "s-maxage") with _ | n
          · simp only [h5, Option.isSome_none, Bool.and_false,
              Bool.false_eq_true, if_false, Option.map_none]
            rcases h6 : toSafePositiveInteger
                (jsGet (parseCacheControl responseCacheControl) "max-age") with _ | m
            · simp only [h6, Option.isSome_none, Bool.false_eq_true, if_false,
                Option.map_none]
              rcases h7 : expires with _ | e
              · simp
              · simp only [Option.isNone_some, Bool.false_eq_true, if_false,
                  Option.some_bind]
                rcases h8 : env.dateParse e with _ | d
                · simp [h8]
                · simp [h8]
            · simp [h6]
          · simp [h5]
      · simp only [h3, Bool.false_and, Bool.false_eq_true, if_false, ite_false]
        rcases h6 : toSafePositiveInteger
            (jsGet (parseCacheControl responseCacheControl) "max-age") with _ | m
        · simp only [h6, Option.isSome_none, Bool.false_eq_true, if_false,
            Option.map_none]
          rcases h7 : expires with _ | e
          · simp
          · simp only [Option.isNone_some, Bool.false_eq_true, if_false,
              Option.some_bind]
            rcases h8 : env.dateParse e with _ | d
            · simp [h8]
            · simp [h8]
        · simp [h6]

/-- C7 counterexample.  The claim says an *absent* `Date` header makes
`date_value` equal `request_time`.  In the source an absent `Date` takes the
`dateHeader === null ? Date.now() : …` branch, so `date_value` is the
current time: with `request_time = 0` and the clock at 5, `date_value` is 5,
not 0. -/
theorem c7_absent_date_counterexample :
    dateValueMs (plainEnvAt 5) none 0 = 5 ∧ ((5 : Int) ≠ 0) := by
  refine ⟨by decide, by decide⟩

/-- C7 amended.  `date_value` equals the parsed `Date` exactly when it lies
strictly between `request_time` and the current time, and equals
`request_time` when the header is present but fails to parse or falls
outside that interval; an *absent* `Date` header instead yields the current
time.  With that `date_value`,
`corrected_initial_age = max(max(0, response_time − date_value),
age_value + (response_time − request_time))`. -/
theorem c7_date_value_and_age_characterization (env : Env)
    (ageHeader dateHeader : Option String) (d : String)
    (requestTime responseTime : Int) :
    dateValueMs env none requestTime = env.now
    ∧ dateValueMs env (some d) requestTime
        = (match env.dateParse d with
            | some parsed =>
              if requestTime < parsed ∧ parsed < env.now then parsed
              else requestTime
            | none => requestTime)
    ∧ calculateAgeMs env ageHeader dateHeader requestTime responseTime
        = max (max 0 (responseTime - dateValueMs env dateHeader requestTime))
            ((((toSafePositiveInteger ageHeader).getD 0 : Nat) : Int) * 1000
              + (responseTime - requestTime)) := by
  refine ⟨rfl, ?_, rfl⟩
  simp only [dateValueMs, normalizeDateHeader]
  rcases env.dateParse d with _ | p
  · rfl
  · simp only [gt_iff_lt, Bool.and_eq_true, decide_eq_true_eq]

/-- C10.  A lookup with a safe method (in particular `GET` or `HEAD`)
performs no set and no delete on either store — the state after `#get` is
exactly the state before — and when the outcome is a response its headers
are the stored entry's headers with `Age` rewritten on a fresh copy, the
stored record itself being untouched (only a non-safe method can write,
through the queued invalidation). -/
theorem c10_safe_lookup_leaves_state_unchanged (env : Env) (cfg : Config)
    (st : CacheState) (url method : String) (requestHeaders : HeadersL)
    (b : Option (List Nat)) (s : Int) (hdrs : HeadersL) (m : Metadata)
    (hsafe : isSafeMethod method = true) :
    (httpCacheGet env cfg st url method requestHeaders).2 = st
    ∧ ((httpCacheGet env cfg st url method requestHeaders).1
          = GetOutcome.response b s hdrs →
        jsGet st.metadata (getMetadataKey url) = some m →
        hdrs = jsObjSet m.responseHeaders "age"
          (toString (Int.fdiv (m.correctedInitialAge + (env.now - m.responseTime))
            1000))) := by
  constructor
  · simp only [httpCacheGet, hsafe, if_true]
    repeat' split
    all_goals rfl
  · intro houtcome hm
    simp only [httpCacheGet, hsafe, if_true] at houtcome
    split at houtcome
    · exact absurd houtcome (by simp)
    · split at houtcome
      · exact absurd houtcome (by simp)
      · split at houtcome
        · exact absurd houtcome (by simp)
        · rename_i metadata hfound
          rw [hm] at hfound
          cases hfound
          split at houtcome
          · exact absurd houtcome (by simp)
          · split at houtcome
            · exact absurd houtcome (by simp)
            · split at houtcome
              · split at houtcome <;> exact absurd houtcome (by simp)
              · split at houtcome
                · cases houtcome
                  rfl
                · split at houtcome
                  · exact absurd houtcome (by simp)
                  · cases houtcome
                    rfl
                  · cases houtcome
                    rfl

/-- A fresh stored entry used to exercise the lookup hit path. -/
def c10Entry : Metadata :=
  { id := "id0"
    responseTime := 0
    lastModified := none
    etag := none
    vary := []
    method := "GET"
    statusCode := 200
    correctedInitialAge := 0
    lifetime := 60000
    mustRevalidateStale := false
    sharedMustRevalidateStale := false
    alwaysRevalidate := false
    responseHeaders := [("x", "y")]
    invalidated := false }

def c10State : CacheState :=
  { metadata := [("u", c10Entry)], blobs := [("id0|u", some [104])] }

theorem c10_safe_lookup_leaves_state_unchanged_witness :
    isSafeMethod "GET" = true
    ∧ (httpCacheGet (plainEnvAt 1000) defaultConfig c10State "u" "GET" []).1
        = GetOutcome.response (some [104]) 200 [("x", "y"), ("age", "1")]
    ∧ ((httpCacheGet (plainEnvAt 1000) defaultConfig c10State "u" "GET" []).2
          = c10State
        ∧ ((httpCacheGet (plainEnvAt 1000) defaultConfig c10State "u" "GET" []).1
              = GetOutcome.response (some [104]) 200 [("x", "y"), ("age", "1")] →
            jsGet c10State.metadata (getMetadataKey "u") = some c10Entry →
            [("x", "y"), ("age", "1")]
              = jsObjSet c10Entry.responseHeaders "age"
                  (toString (Int.fdiv (c10Entry.correctedInitialAge
                    + ((plainEnvAt 1000).now - c10Entry.responseTime)) 1000)))) :=
  ⟨by decide, by decide,
    c10_safe_lookup_leaves_state_unchanged (plainEnvAt 1000) defaultConfig
      c10State "u" "GET" [] (some [104]) 200 [("x", "y"), ("age", "1")]
      c10Entry (by decide)⟩

/-- C6.  For a lookup that reaches the freshness decision (cacheable
method, no conditional request headers, entry present, cross-method and
vary checks passed), a revalidation outcome is emitted exactly when the
decision `revalidate || (min-fresh present && current_age + min_fresh <
lifetime) || (stale && not (max-stale present && max_stale ≥ stale))`
holds *and* at least one validator is stored; the revalidation request
carries `If-Modified-Since` from the stored `last_modified` and/or
`If-None-Match` from the stored `etag`, and when neither validator exists
the lookup degrades to a miss. -/
theorem c6_revalidation_decision (env : Env) (cfg : Config) (st : CacheState)
    (url method : String) (requestHeaders : HeadersL) (m : Metadata)
    (hmethod : method = "GET" ∨ method = "HEAD")
    (hcond : (jsHas requestHeaders "range" || jsHas requestHeaders "if-match"
      || jsHas requestHeaders "if-none-match"
      || jsHas requestHeaders "if-modified-since"
      || jsHas requestHeaders "if-unmodified-since"
      || jsHas requestHeaders "if-range") = false)
    (hfound : jsGet st.metadata (getMetadataKey url) = some m)
    (hcross : ¬(m.method = "HEAD" ∧ method = "GET"))
    (hvary : m.vary.all (fun p => jsGet requestHeaders p.1 = p.2) = true) :
    (isRevalidationOutcome (httpCacheGet env cfg st url method requestHeaders).1
        = true
      ↔ (lookupDecision env cfg m requestHeaders = true
          ∧ (m.lastModified.isSome || m.etag.isSome) = true))
    ∧ (lookupDecision env cfg m requestHeaders = true →
        (m.lastModified.isSome || m.etag.isSome) = true →
        (httpCacheGet env cfg st url method requestHeaders).1
          = GetOutcome.revalidation
              ((match m.lastModified with
                | some lm => [("if-modified-since", env.toUTCString lm)]
                | none => [])
              ++ (match m.etag with
                | some e => [("if-none-match", e)]
                | none => [])))
    ∧ (lookupDecision env cfg m requestHeaders = true →
        m.lastModified = none → m.etag = none →
        (httpCacheGet env cfg st url method requestHeaders).1
          = GetOutcome.miss) := by
  have hget : httpCacheGet env cfg st url method requestHeaders
      = (if lookupDecision env cfg m requestHeaders then
          (if m.lastModified = none ∧ m.etag = none then (GetOutcome.miss, st)
           else
            (GetOutcome.revalidation
              ((match m.lastModified with
                | some lm => [("if-modified-since", env.toUTCString lm)]
                | none => [])
              ++ (match m.etag with
                | some e => [("if-none-match", e)]
                | none => [])), st))
        else
          (if method = "HEAD" then
            (GetOutcome.response (some []) m.statusCode
              (jsObjSet m.responseHeaders "age"
                (toString (Int.fdiv
                  (m.correctedInitialAge + (env.now - m.responseTime)) 1000))), st)
           else
            match jsGet st.blobs (getBlobKey m.id url) with
            | none => (GetOutcome.miss, st)
            | some none =>
              (GetOutcome.response none m.statusCode
                (jsObjSet m.responseHeaders "age"
                  (toString (Int.fdiv
                    (m.correctedInitialAge + (env.now - m.responseTime)) 1000))), st)
            | some (some blob) =>
              (GetOutcome.response (some blob) m.statusCode
                (jsObjSet m.responseHeaders "age"
                  (toString (Int.fdiv
                    (m.correctedInitialAge + (env.now - m.responseTime)) 1000))), st))) := by
    rw [httpCacheGet]
    rw [if_neg (by rcases hmethod with h | h <;> simp [h])]
    simp only [hcond, Bool.false_eq_true, if_false, hfound]
    rw [if_neg hcross]
    simp only [hvary, Bool.not_true, Bool.false_eq_true, if_false]
  have hval_iff : ∀ (a : Option Int) (b : Option String),
      (a.isSome || b.isSome) = true ↔ ¬(a = none ∧ b = none) := by
    intro a b
    rcases a <;> rcases b <;> simp
  refine ⟨?_, ?_, ?_⟩
  · constructor
    · intro hrev
      rw [hget] at hrev
      by_cases hd : lookupDecision env cfg m requestHeaders = true
      · rw [if_pos hd] at hrev
        by_cases hv : m.lastModified = none ∧ m.etag = none
        · rw [if_pos hv] at hrev
          simp [isRevalidationOutcome] at hrev
        · exact ⟨hd, (hval_iff _ _).2 hv⟩
      · rw [if_neg hd] at hrev
        exfalso
        revert hrev
        split
        · simp [isRevalidationOutcome]
        · split <;> simp [isRevalidationOutcome]
    · rintro ⟨hd, hval⟩
      rw [hget, if_pos hd, if_neg ((hval_iff _ _).1 hval)]
      simp [isRevalidationOutcome]
  · intro hd hval
    rw [hget, if_pos hd, if_neg ((hval_iff _ _).1 hval)]
  · intro hd h1 h2
    rw [hget, if_pos hd, if_pos ⟨h1, h2⟩]

/-- A stale stored entry carrying an `ETag` validator, for exercising the
revalidation branch of the lookup. -/
def c6Entry : Metadata :=
  { id := "id0"
    responseTime := 0
    lastModified := none
    etag := some "\"v1\""
    vary := []
    method := "GET"
    statusCode := 200
    correctedInitialAge := 0
    lifetime := 1000
    mustRevalidateStale := false
    sharedMustRevalidateStale := false
    alwaysRevalidate := false
    responseHeaders := [("x", "y")]
    invalidated := false }

def c6State : CacheState :=
  { metadata := [("u", c6Entry)], blobs := [("id0|u", some [120])] }

theorem c6_revalidation_decision_witness :
    ("GET" = "GET" ∨ "GET" = "HEAD")
    ∧ (jsHas ([] : HeadersL) "range" || jsHas ([] : HeadersL) "if-match"
        || jsHas ([] : HeadersL) "if-none-match"
        || jsHas ([] : HeadersL) "if-modified-since"
        || jsHas ([] : HeadersL) "if-unmodified-since"
        || jsHas ([] : HeadersL) "if-range") = false
    ∧ jsGet c6State.metadata (getMetadataKey "u") = some c6Entry
    ∧ ¬(c6Entry.method = "HEAD" ∧ "GET" = "GET")
    ∧ c6Entry.vary.all (fun p => jsGet ([] : HeadersL) p.1 = p.2) = true
    ∧ lookupDecision (plainEnvAt 2000) defaultConfig c6Entry [] = true
    ∧ (httpCacheGet (plainEnvAt 2000) defaultConfig c6State "u" "GET" []).1
        = GetOutcome.revalidation [("if-none-match", "\"v1\"")]
    ∧ ((isRevalidationOutcome
          (httpCacheGet (plainEnvAt 2000) defaultConfig c6State "u" "GET" []).1
            = true
        ↔ (lookupDecision (plainEnvAt 2000) defaultConfig c6Entry [] = true
            ∧ (c6Entry.lastModified.isSome || c6Entry.etag.isSome) = true))
      ∧ (lookupDecision (plainEnvAt 2000) defaultConfig c6Entry [] = true →
          (c6Entry.lastModified.isSome || c6Entry.etag.isSome) = true →
          (httpCacheGet (plainEnvAt 2000) defaultConfig c6State "u" "GET" []).1
            = GetOutcome.revalidation
                ((match c6Entry.lastModified with
                  | some lm => [("if-modified-since", (plainEnvAt 2000).toUTCString lm)]
                  | none => [])
                ++ (match c6Entry.etag with
                  | some e => [("if-none-match", e)]
                  | none => [])))
      ∧ (lookupDecision (plainEnvAt 2000) defaultConfig c6Entry [] = true →
          c6Entry.lastModified = none → c6Entry.etag = none →
          (httpCacheGet (plainEnvAt 2000) defaultConfig c6State "u" "GET" []).1
            = GetOutcome.miss)) :=
  ⟨Or.inl rfl, by decide, by decide, by decide, by decide, by decide, by decide,
    c6_revalidation_decision (plainEnvAt 2000) defaultConfig c6State "u" "GET"
      [] c6Entry (Or.inl rfl) (by decide) (by decide) (by decide) (by decide)⟩

/-- C8.  Ingesting a 304 whose validators match the stored entry
(`shouldInvalidateCache` is false) writes back an entry that preserves the
prior entry's `id`, `method` and `statusCode` unchanged, leaves the blob
store untouched (the blob keyed by `(id, url)` is neither written nor
deleted), and replaces `responseTime`, `lifetime` and `responseHeaders`
(hop-by-hop stripped) with values derived from the incoming response. -/
theorem c8_matching_304_preserves_identity_and_blob (env : Env) (cfg : Config)
    (st : CacheState) (url : String)
    (requestHeaders responseHeaders : HeadersL)
    (requestTime responseTime : Int) (stream : Option (List Nat))
    (old : Metadata) (lifetime : Int)
    (hold : jsGet st.metadata (getMetadataKey url) = some old)
    (hmatch : shouldInvalidateCache env old responseHeaders = false)
    (hcr : jsHas responseHeaders "content-range" = false)
    (hstore : canStore cfg.shared "GET" 304
        (jsHas responseHeaders "authorization")
        (jsGet responseHeaders "cache-control")
        (jsHas responseHeaders "expires")
        (jsGet responseHeaders "vary") cfg.forceMustUnderstand = true)
    (hlife : getLifetimeMs env cfg.shared (jsGet responseHeaders "expires")
        (jsGet requestHeaders "cache-control")
        (jsGet responseHeaders "cache-control") cfg.heuristicLifetime
      = some lifetime) :
    (httpCacheOnResponse env cfg st url "GET" 304 requestHeaders
        responseHeaders requestTime responseTime stream).blobs = st.blobs
    ∧ jsGet (httpCacheOnResponse env cfg st url "GET" 304 requestHeaders
        responseHeaders requestTime responseTime stream).metadata
        (getMetadataKey url)
      = some
          { id := old.id
            responseTime := responseTime
            lastModified := normalizeLastModified env
              (jsGet responseHeaders "last-modified")
            etag := jsGet responseHeaders "etag"
            vary := parseVary (jsGet responseHeaders "vary") requestHeaders
            method := old.method
            statusCode := old.statusCode
            correctedInitialAge := calculateAgeMs env
              (jsGet responseHeaders "age") (jsGet responseHeaders "date")
              requestTime responseTime
            lifetime := lifetime
            mustRevalidateStale := jsHas
              (parseCacheControl (jsGet responseHeaders "cache-control"))
              "must-revalidate"
            sharedMustRevalidateStale := jsHas
              (parseCacheControl (jsGet responseHeaders "cache-control"))
              "proxy-revalidate"
            alwaysRevalidate := jsHas
              (parseCacheControl (jsGet responseHeaders "cache-control"))
              "no-cache"
            responseHeaders := withoutHopByHop responseHeaders
            invalidated := false } := by
  have hinval : (tryInvalidateFn env st url "GET" 304
      (jsGet st.metadata (getMetadataKey url)) responseHeaders).1 = false := by
    rw [hold]
    simp [tryInvalidateFn, hmatch]
  rw [onResponse_stores env cfg st url "GET" 304 requestHeaders responseHeaders
    requestTime responseTime stream lifetime hcr hstore hlife hinval]
  rw [if_pos rfl]
  refine ⟨rfl, ?_⟩
  rw [hold]
  rw [jsGet_jsObjSet_self]
  rfl

/-- The prior entry of Scenario F: a stored 200 whose entity headers are all
present so that the incoming 304 can match them. -/
def c8OldEntry : Metadata :=
  { id := "id0"
    responseTime := 0
    lastModified := none
    etag := some "\"v1\""
    vary := []
    method := "GET"
    statusCode := 200
    correctedInitialAge := 0
    lifetime := 1000
    mustRevalidateStale := false
    sharedMustRevalidateStale := false
    alwaysRevalidate := false
    responseHeaders := [("content-length", "1"), ("content-type", "t"),
      ("content-language", "l"), ("content-encoding", "e")]
    invalidated := false }

def c8State : CacheState :=
  { metadata := [("u", c8OldEntry)], blobs := [("id0|u", some [120])] }

def c8RespHeaders : HeadersL :=
  [("etag", "\"v1\""), ("cache-control", "max-age=60"),
    ("content-length", "1"), ("content-type", "t"),
    ("content-language", "l"), ("content-encoding", "e")]

theorem c8_matching_304_preserves_identity_and_blob_witness :
    jsGet c8State.metadata (getMetadataKey "u") = some c8OldEntry
    ∧ shouldInvalidateCache (plainEnvAt 10) c8OldEntry c8RespHeaders = false
    ∧ jsHas c8RespHeaders "content-range" = false
    ∧ canStore defaultConfig.shared "GET" 304 (jsHas c8RespHeaders "authorization")
        (jsGet c8RespHeaders "cache-control") (jsHas c8RespHeaders "expires")
        (jsGet c8RespHeaders "vary") defaultConfig.forceMustUnderstand = true
    ∧ getLifetimeMs (plainEnvAt 10) defaultConfig.shared
        (jsGet c8RespHeaders "expires") (jsGet ([] : HeadersL) "cache-control")
        (jsGet c8RespHeaders "cache-control") defaultConfig.heuristicLifetime
      = some 60000
    ∧ ((httpCacheOnResponse (plainEnvAt 10) defaultConfig c8State "u" "GET" 304
          [] c8RespHeaders 9 10 none).blobs = c8State.blobs
        ∧ jsGet (httpCacheOnResponse (plainEnvAt 10) defaultConfig c8State "u"
            "GET" 304 [] c8RespHeaders 9 10 none).metadata (getMetadataKey "u")
          = some
              { id := c8OldEntry.id
                responseTime := 10
                lastModified := normalizeLastModified (plainEnvAt 10)
                  (jsGet c8RespHeaders "last-modified")
                etag := jsGet c8RespHeaders "etag"
                vary := parseVary (jsGet c8RespHeaders "vary") ([] : HeadersL)
                method := c8OldEntry.method
                statusCode := c8OldEntry.statusCode
                correctedInitialAge := calculateAgeMs (plainEnvAt 10)
                  (jsGet c8RespHeaders "age") (jsGet c8RespHeaders "date") 9 10
                lifetime := 60000
                mustRevalidateStale := jsHas
                  (parseCacheControl (jsGet c8RespHeaders "cache-control"))
                  "must-revalidate"
                sharedMustRevalidateStale := jsHas
                  (parseCacheControl (jsGet c8RespHeaders "cache-control"))
                  "proxy-revalidate"
                alwaysRevalidate := jsHas
                  (parseCacheControl (jsGet c8RespHeaders "cache-control"))
                  "no-cache"
                responseHeaders := withoutHopByHop c8RespHeaders
                invalidated := false }) :=
  ⟨by decide, by decide, by decide, by decide, by decide,
    c8_matching_304_preserves_identity_and_blob (plainEnvAt 10) defaultConfig
      c8State "u" [] c8RespHeaders 9 10 none c8OldEntry 60000 (by decide)
      (by decide) (by decide) (by decide) (by decide)⟩

/-- C9 counterexample.  The claim says the stored `response_headers` contain
no field named in the *request's* `Connection` header.  `withoutHopByHop`
only ever reads the *response's* `Connection` header: with the request
carrying `Connection: x-foo` and the response carrying an `x-foo` field (and
no `Connection` of its own), the written entry stores `x-foo`. -/
theorem c9_request_connection_counterexample :
    (connectionTokens [("connection", "x-foo")]).contains "x-foo" = true
    ∧ ((jsGet (httpCacheOnResponse (plainEnvAt 0) defaultConfig emptyState "u"
          "GET" 200 [("connection", "x-foo")]
          [("x-foo", "v"), ("cache-control", "max-age=60")] 0 0
          (some [120])).metadata "u").bind
        (fun m => jsGet m.responseHeaders "x-foo")) = some "v" := by
  refine ⟨by decide, by decide⟩

theorem withoutHopByHop_drops (responseHeaders : HeadersL) (h : String)
    (hname : isHopByHop h = true
      ∨ (connectionTokens responseHeaders).contains h = true) :
    jsGet (withoutHopByHop responseHeaders) h = none := by
  have key : ∀ (l acc : HeadersL), jsGet acc h = none →
      jsGet (l.foldl (fun acc kv =>
        if !isHopByHop kv.1 && !(connectionTokens responseHeaders).contains kv.1 then
          match jsGet responseHeaders kv.1 with
          | some v => jsObjSet acc kv.1 v
          | none => acc
        else acc) acc) h = none := by
    intro l
    induction l with
    | nil =>
      intro acc hacc
      simpa using hacc
    | cons kv rest ih =>
      intro acc hacc
      rw [List.foldl_cons]
      apply ih
      by_cases hcond : (!isHopByHop kv.1
          && !(connectionTokens responseHeaders).contains kv.1) = true
      · rw [if_pos hcond]
        have hne : kv.1 ≠ h := by
          rcases hname with hh | hh
          · intro heq
            rw [heq] at hcond
            simp [hh] at hcond
          · intro heq
            rw [heq] at hcond
            simp at hcond
            exact absurd (by simpa using hh) hcond.2
        rcases hv : jsGet responseHeaders kv.1 with _ | v
        · exact hacc
        · rw [jsGet_jsObjSet_ne _ _ _ _ hne]
          exact hacc
      · rw [if_neg hcond]
        exact hacc
  have hkey := key responseHeaders [] (by simp [jsGet])
  simpa only [withoutHopByHop] using hkey

/-- C9 amended.  For every entry the insertion path writes, the stored
`response_headers` mapping contains none of `connection`, `keep-alive`,
`proxy-authenticate`, `proxy-authentication-info`, and no field whose name
is listed in the *response's* `Connection` header (the request's
`Connection` plays no role). -/
theorem c9_stored_headers_strip_response_hop_by_hop (env : Env) (cfg : Config)
    (st : CacheState) (url method : String) (statusCode : Int)
    (requestHeaders responseHeaders : HeadersL)
    (requestTime responseTime : Int) (stream : Option (List Nat))
    (lifetime : Int) (h : String)
    (hcr : jsHas responseHeaders "content-range" = false)
    (hstore : canStore cfg.shared method statusCode
        (jsHas responseHeaders "authorization")
        (jsGet responseHeaders "cache-control")
        (jsHas responseHeaders "expires")
        (jsGet responseHeaders "vary") cfg.forceMustUnderstand = true)
    (hlife : getLifetimeMs env cfg.shared (jsGet responseHeaders "expires")
        (jsGet requestHeaders "cache-control")
        (jsGet responseHeaders "cache-control") cfg.heuristicLifetime
      = some lifetime)
    (hinval : (tryInvalidateFn env st url method statusCode
        (jsGet st.metadata (getMetadataKey url)) responseHeaders).1 = false)
    (hname : isHopByHop h = true
      ∨ (connectionTokens responseHeaders).contains h = true) :
    jsGet (withoutHopByHop responseHeaders) h = none
    ∧ ((jsGet (httpCacheOnResponse env cfg st url method statusCode
          requestHeaders responseHeaders requestTime responseTime
          stream).metadata (getMetadataKey url)).bind
        (fun m => jsGet m.responseHeaders h)) = none := by
  refine ⟨withoutHopByHop_drops responseHeaders h hname, ?_⟩
  rw [onResponse_stores env cfg st url method statusCode requestHeaders
    responseHeaders requestTime responseTime stream lifetime hcr hstore hlife
    hinval]
  by_cases h304 : statusCode = 304
  · rw [if_pos h304]
    simp only
    rw [jsGet_jsObjSet_self]
    rw [Option.some_bind]
    exact withoutHopByHop_drops responseHeaders h hname
  · rw [if_neg h304]
    simp only
    rw [jsGet_jsObjSet_self]
    rw [Option.some_bind]
    exact withoutHopByHop_drops responseHeaders h hname

def c9RespHeaders : HeadersL :=
  [("connection", "a"), ("a", "1"), ("cache-control", "max-age=60"), ("x", "y")]

theorem c9_stored_headers_strip_response_hop_by_hop_witness :
    jsHas c9RespHeaders "content-range" = false
    ∧ canStore defaultConfig.shared "GET" 200 (jsHas c9RespHeaders "authorization")
        (jsGet c9RespHeaders "cache-control") (jsHas c9RespHeaders "expires")
        (jsGet c9RespHeaders "vary") defaultConfig.forceMustUnderstand = true
    ∧ getLifetimeMs (plainEnvAt 0) defaultConfig.shared
        (jsGet c9RespHeaders "expires") (jsGet ([] : HeadersL) "cache-control")
        (jsGet c9RespHeaders "cache-control") defaultConfig.heuristicLifetime
      = some 60000
    ∧ (tryInvalidateFn (plainEnvAt 0) emptyState "u" "GET" 200
        (jsGet emptyState.metadata (getMetadataKey "u")) c9RespHeaders).1 = false
    ∧ (isHopByHop "a" = true ∨ (connectionTokens c9RespHeaders).contains "a" = true)
    ∧ (jsGet (withoutHopByHop c9RespHeaders) "a" = none
        ∧ ((jsGet (httpCacheOnResponse (plainEnvAt 0) defaultConfig emptyState
              "u" "GET" 200 [] c9RespHeaders 0 0 (some [120])).metadata
              (getMetadataKey "u")).bind
            (fun m => jsGet m.responseHeaders "a")) = none) :=
  ⟨by decide, by decide, by decide, by decide, Or.inr (by decide),
    c9_stored_headers_strip_response_hop_by_hop (plainEnvAt 0) defaultConfig
      emptyState "u" "GET" 200 [] c9RespHeaders 0 0 (some [120]) 60000 "a"
      (by decide) (by decide) (by decide) (by decide) (Or.inr (by decide))⟩

/-- C4 counterexample.  `on_response` completes successfully (it is
non-failing) even when it legitimately decides not to cache: with
`Cache-Control: no-store` the store is left empty and the subsequent
matching `GET` lookup is a miss, not a response carrying the input body
bytes — so the round-trip does not hold for every successful
`on_response`. -/
theorem c4_roundtrip_counterexample :
    httpCacheOnResponse (plainEnvAt 0) defaultConfig emptyState "u" "GET" 200
        [] [("cache-control", "no-store")] 0 0 (some [120]) = emptyState
    ∧ (httpCacheGet (plainEnvAt 0) defaultConfig
        (httpCacheOnResponse (plainEnvAt 0) defaultConfig emptyState "u" "GET"
          200 [] [("cache-control", "no-store")] 0 0 (some [120]))
        "u" "GET" []).1 = GetOutcome.miss := by
  refine ⟨by decide, by decide⟩

/-- The body of a response outcome (`none` for a miss or a revalidation
request). -/
def outcomeBody : GetOutcome → Option (Option (List Nat))
  | GetOutcome.response b _ _ => some b
  | _ => none

/-- When the entry stored for a URL points at a blob holding `bytes`, a
`GET` lookup either does not produce a response outcome at all, or produces
one whose body is exactly `bytes`. -/
theorem lookupBodyFromBlob (env : Env) (cfg : Config) (st : CacheState)
    (url : String) (requestHeaders : HeadersL) (m : Metadata)
    (bytes : List Nat)
    (hM : jsGet st.metadata (getMetadataKey url) = some m)
    (hB : jsGet st.blobs (getBlobKey m.id url) = some (some bytes)) :
    outcomeBody (httpCacheGet env cfg st url "GET" requestHeaders).1
        = some (some bytes)
    ∨ outcomeBody (httpCacheGet env cfg st url "GET" requestHeaders).1
        = none := by
  rw [httpCacheGet]
  rw [if_neg (by simp)]
  by_cases hcond : (jsHas requestHeaders "range" || jsHas requestHeaders "if-match"
      || jsHas requestHeaders "if-none-match"
      || jsHas requestHeaders "if-modified-since"
      || jsHas requestHeaders "if-unmodified-since"
      || jsHas requestHeaders "if-range") = true
  · rw [if_pos hcond]
    right
    rfl
  · rw [if_neg hcond]
    simp only [hM]
    by_cases hcross : m.method = "HEAD"
    · rw [if_pos (⟨hcross, trivial⟩ : m.method = "HEAD" ∧ True)]
      right
      rfl
    · rw [if_neg (fun hc => hcross hc.1)]
      by_cases hvary : (!(m.vary.all fun p => jsGet requestHeaders p.1 = p.2)) = true
      · rw [if_pos hvary]
        right
        rfl
      · rw [if_neg hvary]
        by_cases hd : lookupDecision env cfg m requestHeaders = true
        · rw [if_pos hd]
          by_cases hv : m.lastModified = none ∧ m.etag = none
          · rw [if_pos hv]
            right
            rfl
          · rw [if_neg hv]
            right
            rfl
        · rw [if_neg hd]
          rw [if_neg (by simp : ¬("GET" = "HEAD"))]
          rw [hB]
          left
          rfl

/-- C4 amended.  When the `on_response` call actually stores the body —
method `GET`, a status other than 204 and 304, a body stream present, and
the content-range, storability, lifetime and freshening gates all passed —
then every later `GET` lookup on the same URL either fails to produce a
response outcome (conditional headers, vary mismatch, a decision to
revalidate, a stored-HEAD entry) or produces one whose body bytes are
exactly the bytes that were passed in. -/
theorem c4_roundtrip_of_stored_body (env env2 : Env) (cfg : Config)
    (st : CacheState) (url : String) (statusCode : Int)
    (requestHeaders responseHeaders lookupHeaders : HeadersL)
    (requestTime responseTime : Int) (bytes : List Nat) (lifetime : Int)
    (hcr : jsHas responseHeaders "content-range" = false)
    (hstore : canStore cfg.shared "GET" statusCode
        (jsHas responseHeaders "authorization")
        (jsGet responseHeaders "cache-control")
        (jsHas responseHeaders "expires")
        (jsGet responseHeaders "vary") cfg.forceMustUnderstand = true)
    (hlife : getLifetimeMs env cfg.shared (jsGet responseHeaders "expires")
        (jsGet requestHeaders "cache-control")
        (jsGet responseHeaders "cache-control") cfg.heuristicLifetime
      = some lifetime)
    (hinval : (tryInvalidateFn env st url "GET" statusCode
        (jsGet st.metadata (getMetadataKey url)) responseHeaders).1 = false)
    (h204 : statusCode ≠ 204) (h304 : statusCode ≠ 304) :
    outcomeBody (httpCacheGet env2 cfg
        (httpCacheOnResponse env cfg st url "GET" statusCode requestHeaders
          responseHeaders requestTime responseTime (some bytes))
        url "GET" lookupHeaders).1 = some (some bytes)
    ∨ outcomeBody (httpCacheGet env2 cfg
        (httpCacheOnResponse env cfg st url "GET" statusCode requestHeaders
          responseHeaders requestTime responseTime (some bytes))
        url "GET" lookupHeaders).1 = none := by
  rw [onResponse_stores env cfg st url "GET" statusCode requestHeaders
    responseHeaders requestTime responseTime (some bytes) lifetime hcr hstore
    hlife hinval]
  rw [if_neg h304]
  refine lookupBodyFromBlob env2 cfg _ url lookupHeaders
    (insertedMetadata env (jsGet st.metadata (getMetadataKey url)) "GET"
      statusCode requestHeaders responseHeaders requestTime responseTime
      lifetime) bytes (jsGet_jsObjSet_self _ _ _) ?_
  have hbuf : (if (some bytes).isNone || ("GET" : String) = "HEAD"
      || statusCode = 204 || statusCode = 304 then none
    else some bytes) = some bytes := by
    simp [h204, h304]
  rw [hbuf]
  exact jsGet_jsObjSet_self _ _ _

theorem c4_roundtrip_of_stored_body_witness :
    jsHas [("cache-control", "max-age=60")] "content-range" = false
    ∧ canStore defaultConfig.shared "GET" 200
        (jsHas [("cache-control", "max-age=60")] "authorization")
        (jsGet [("cache-control", "max-age=60")] "cache-control")
        (jsHas [("cache-control", "max-age=60")] "expires")
        (jsGet [("cache-control", "max-age=60")] "vary")
        defaultConfig.forceMustUnderstand = true
    ∧ getLifetimeMs (plainEnvAt 0) defaultConfig.shared
        (jsGet [("cache-control", "max-age=60")] "expires")
        (jsGet ([] : HeadersL) "cache-control")
        (jsGet [("cache-control", "max-age=60")] "cache-control")
        defaultConfig.heuristicLifetime = some 60000
    ∧ (tryInvalidateFn (plainEnvAt 0) emptyState "u" "GET" 200
        (jsGet emptyState.metadata (getMetadataKey "u"))
        [("cache-control", "max-age=60")]).1 = false
    ∧ ((200 : Int) ≠ 204) ∧ ((200 : Int) ≠ 304)
    ∧ (outcomeBody (httpCacheGet (plainEnvAt 0) defaultConfig
          (httpCacheOnResponse (plainEnvAt 0) defaultConfig emptyState "u"
            "GET" 200 [] [("cache-control", "max-age=60")] 0 0 (some [104, 105]))
          "u" "GET" []).1 = some (some [104, 105])
        ∨ outcomeBody (httpCacheGet (plainEnvAt 0) defaultConfig
            (httpCacheOnResponse (plainEnvAt 0) defaultConfig emptyState "u"
              "GET" 200 [] [("cache-control", "max-age=60")] 0 0 (some [104, 105]))
            "u" "GET" []).1 = none) :=
  ⟨by decide, by decide, by decide, by decide, by decide, by decide,
    c4_roundtrip_of_stored_body (plainEnvAt 0) (plainEnvAt 0) defaultConfig
      emptyState "u" 200 [] [("cache-control", "max-age=60")] [] 0 0
      [104, 105] 60000 (by decide) (by decide) (by decide) (by decide)
      (by decide) (by decide)⟩

end HttpCacheModel
